import Mathlib

/-
Verification of the typed-to-dynamic object-graph marshaller of the
iondrive library (src/lib.rs).  The Rust code walks a strongly typed,
immutable font model (the norad data model) and reconstructs an
equivalent tree of host (Python) objects through host-supplied
constructors looked up by name in a loader module.

The embedding below mirrors src/lib.rs:
  - `PyObject` is the dynamic host value universe: scalars, tuples,
    lists, insertion-ordered dicts, and the results of constructor /
    method calls (`call cls kwargs`, `methodCall cls meth args`).
  - A `Loader` is the host registry: a predicate telling which type
    names resolve; `getattr` models `loader.getattr(name).unwrap()`
    fallibly, returning `Except MarshalError`.
  - The `MyToPyObject` conversions (Vec, Option, Arc<str>, BTreeMap)
    become total Lean functions; BTreeMaps are association lists whose
    sortedness (the Rust BTreeMap representation invariant) is a
    separate decidable predicate.
  - The `ToWrappedPyObject` marshallers become `Except`-valued
    functions: any `.unwrap()` on a registry lookup is an explicit
    error path.
-/

namespace Iondrive

/-- Dynamic host values produced by the marshaller.  A `dict` keeps its
entries in insertion order, as a Python dict does.  `call cls kwargs`
stands for the object returned by `cls(**kwargs)`; `methodCall` for the
object returned by a class-method call with positional arguments. -/
inductive PyObject where
  | none
  | bool (b : Bool)
  | int (n : Int)
  | real (q : Rat)
  | str (s : String)
  | tuple (xs : List PyObject)
  | list (xs : List PyObject)
  | dict (entries : List (PyObject × PyObject))
  | call (cls : String) (kwargs : List (String × PyObject))
  | methodCall (cls : String) (meth : String) (args : List PyObject)
deriving Repr

/-- Named-argument lookup on a constructed object: the value the
marshaller passed for keyword `k`. -/
def PyObject.kwarg : PyObject → String → Option PyObject
  | .call _ kwargs, k => kwargs.lookup k
  | _, _ => Option.none

/-- Errors of the marshalling phase. `missingAttr n` models the panic of
`loader.getattr(n).unwrap()` when the host registry cannot resolve the
type name `n`. -/
inductive MarshalError where
  | missingAttr (name : String)
deriving Repr, DecidableEq

/-- The host registry (the `loader: &PyModule` argument): which logical
type names resolve to a constructor. -/
abbrev Loader := String → Bool

/-- A registry that resolves every name. -/
def fullLoader : Loader := fun _ => true

/-- Models `loader.getattr(name).unwrap()`: returns the resolved class
(identified by its name) or fails with a distinguishable error. -/
def getattr (loader : Loader) (name : String) : Except MarshalError String :=
  if loader name then .ok name else .error (.missingAttr name)

/-- Modelled from the spec: the free-form library ("lib") value handled
by src/plist.rs, which is absent from src/.  Per the spec it is an
open-ended nested structure of scalars, ordered arrays and key-sorted
maps; a dictionary is a key-sorted association list. -/
inductive Plist where
  | string (s : String)
  | integer (n : Int)
  | real (q : Rat)
  | boolean (b : Bool)
  | array (xs : List Plist)
  | dict (entries : List (String × Plist))
deriving Repr

/-- Strict ascending order of the keys of an association list: the
representation invariant of a Rust `BTreeMap` iteration. -/
def sortedKeys {β : Type} : List (String × β) → Bool
  | [] => true
  | [_] => true
  | (a, _) :: (b, v) :: rest => (decide (a < b)) && sortedKeys ((b, v) :: rest)

mutual

/-- Modelled from the spec: the Arbitrary-Value Converter of
src/plist.rs (absent from src/) converts a library value recursively,
scalars to scalars and arrays to lists; its dictionary case follows the
`MyToPyObject for BTreeMap` impl in src/lib.rs, iterating the entries in
stored (sorted) order and setting each item into a fresh dict. -/
def Plist.to_object : Plist → PyObject
  | .string s => .str s
  | .integer n => .int n
  | .real q => .real q
  | .boolean b => .bool b
  | .array xs => .list (Plist.listToObject xs)
  | .dict es => .dict (Plist.dictToObject es)

/-- Elementwise conversion of a library array, preserving order. -/
def Plist.listToObject : List Plist → List PyObject
  | [] => []
  | x :: xs => x.to_object :: Plist.listToObject xs

/-- Entrywise conversion of a library dictionary, preserving the stored
entry order; keys become host strings. -/
def Plist.dictToObject : List (String × Plist) → List (PyObject × PyObject)
  | [] => []
  | (k, v) :: es => (.str k, v.to_object) :: Plist.dictToObject es

end

mutual

/-- Representation invariant of a library value: every dictionary it
contains, at every depth, has strictly ascending keys (a `BTreeMap`). -/
def Plist.wf : Plist → Bool
  | .string _ => true
  | .integer _ => true
  | .real _ => true
  | .boolean _ => true
  | .array xs => Plist.listWf xs
  | .dict es => sortedKeys es && Plist.dictWf es

/-- All members of a library array are well formed. -/
def Plist.listWf : List Plist → Bool
  | [] => true
  | x :: xs => x.wf && Plist.listWf xs

/-- All values of a library dictionary are well formed. -/
def Plist.dictWf : List (String × Plist) → Bool
  | [] => true
  | (_, v) :: es => v.wf && Plist.dictWf es

end

/-- Key comparison on host dict entries: both keys are strings and in
strictly ascending order. -/
def strKeyLt : PyObject → PyObject → Bool
  | .str a, .str b => decide (a < b)
  | _, _ => false

/-- The keys of a host dict are strings listed in strictly ascending
order. -/
def keysAscending : List (PyObject × PyObject) → Bool
  | [] => true
  | [_] => true
  | (k₁, _) :: (k₂, v) :: rest => strKeyLt k₁ k₂ && keysAscending ((k₂, v) :: rest)

mutual

/-- Every mapping inside a host value, at every nesting depth, lists its
keys in ascending sorted order. -/
def PyObject.dictsSorted : PyObject → Bool
  | .dict es => keysAscending es && PyObject.entriesSorted es
  | .list xs => PyObject.listSorted xs
  | .tuple xs => PyObject.listSorted xs
  | _ => true

/-- `dictsSorted` holds of every element of a list. -/
def PyObject.listSorted : List PyObject → Bool
  | [] => true
  | x :: xs => x.dictsSorted && PyObject.listSorted xs

/-- `dictsSorted` holds of every value of a dict. -/
def PyObject.entriesSorted : List (PyObject × PyObject) → Bool
  | [] => true
  | (_, v) :: es => v.dictsSorted && PyObject.entriesSorted es

end

/-!  The typed font model, as consumed by the marshaller.  The model is
read-only input; entity types whose marshalling lives in repository
modules absent from src/ (anchor.rs, contour.rs, contourpoint.rs,
component.rs, guideline.rs, info.rs) are carried as an extracted
named-argument set, per the spec's description of their marshalling. -/

/-- Modelled from the spec: src/anchor.rs is absent from src/; per the
spec an anchor's entity-specific fields are extracted into a fixed
named-argument set for the resolved constructor. -/
structure Anchor where
  kwargs : List (String × PyObject)

/-- Modelled from the spec: src/contour.rs is absent from src/. -/
structure Contour where
  kwargs : List (String × PyObject)

/-- Modelled from the spec: src/component.rs is absent from src/. -/
structure Component where
  kwargs : List (String × PyObject)

/-- Modelled from the spec: src/guideline.rs is absent from src/. -/
structure Guideline where
  kwargs : List (String × PyObject)

/-- Modelled from the spec: src/info.rs is absent from src/. -/
structure FontInfo where
  kwargs : List (String × PyObject)

/-- A layer colour; the marshaller only ever renders it through
`to_rgba_string`, so it is carried as that canonical textual RGBA
representation. -/
structure Color where
  to_rgba_string : String

/-- A glyph of the typed font model (norad::Glyph as read by
src/lib.rs): name, optional width, codepoints, library data, optional
note and the four ordered child lists. -/
structure Glyph where
  name : String
  width : Option Rat
  codepoints : List Char
  lib : List (String × Plist)
  note : Option String
  anchors : List Anchor
  contours : List Contour
  components : List Component
  guidelines : List Guideline

/-- A layer of the typed font model: name, ordered glyphs, library data
and optional colour. -/
structure Layer where
  name : String
  glyphs : List Glyph
  lib : List (String × Plist)
  color : Option Color

/-- The layer set: an ordered sequence of layers together with the
default layer (norad's `default_layer()` accessor). -/
structure LayerSet where
  layers : List Layer
  default_layer : Layer

/-- Kerning: the two-level mapping left name → right name → numeric
adjustment, as a nested association list (a `BTreeMap` of `BTreeMap`). -/
abbrev Kerning := List (String × List (String × Rat))

/-- Groups: group name → ordered list of glyph names. -/
abbrev Groups := List (String × List String)

/-- The root font entity: library data, layer set, optional font info,
optional feature text, optional groups and optional kerning. -/
structure Font where
  lib : List (String × Plist)
  layers : LayerSet
  font_info : Option FontInfo
  features : Option String
  groups : Option Groups
  kerning : Option Kerning

/-!  The `MyToPyObject` scalar conversions of src/lib.rs. -/

/-- `MyToPyObject for Option<T>`: absence becomes the explicit host
no-value marker, presence converts the payload. -/
def optionToObject (conv : α → PyObject) : Option α → PyObject
  | Option.none => PyObject.none
  | some x => conv x

/-- `MyToPyObject for Vec<T>`: elementwise conversion into a host list,
preserving order. -/
def vecToObject (conv : α → PyObject) (xs : List α) : PyObject :=
  .list (xs.map conv)

/-- `MyToPyObject for Arc<str>`: the shared string is copied by value
into a host string. -/
def arcStrToObject (s : String) : PyObject :=
  .str s

mutual

/-- Whether a host value is hashable, hence usable as a dict key
(CPython semantics: lists and dicts are unhashable, a tuple is hashable
when all its members are). -/
def PyObject.hashable : PyObject → Bool
  | .list _ => false
  | .dict _ => false
  | .call _ _ => true
  | .methodCall _ _ _ => true
  | .tuple xs => PyObject.tupleHashable xs
  | _ => true

/-- All members of a tuple are hashable. -/
def PyObject.tupleHashable : List PyObject → Bool
  | [] => true
  | x :: xs => x.hashable && PyObject.tupleHashable xs

end

/-- `PyDict::set_item` as the fallible operation it is in the source
(`d.set_item(k, v).unwrap()`): appending an entry succeeds exactly when
the key is hashable. -/
def PyDict.setItem (d : List (PyObject × PyObject)) (k v : PyObject) :
    Except String (List (PyObject × PyObject)) :=
  if k.hashable then .ok (d ++ [(k, v)]) else .error "unhashable key"

/-- `MyToPyObject for BTreeMap<A, B>` with every internal `set_item`
kept fallible: iterate the entries in stored (sorted) order and set each
converted pair into a fresh dict. -/
def btreemapToObjectChecked (keyConv : α → PyObject) (valConv : β → PyObject)
    (es : List (α × β)) : Except String PyObject := do
  let d ← es.foldlM (fun d kv => PyDict.setItem d (keyConv kv.1) (valConv kv.2)) []
  pure (.dict d)

/-- `MyToPyObject for BTreeMap<A, B>`, total form: the dict holding the
converted entries in stored (sorted) order. -/
def btreemapToObject (keyConv : α → PyObject) (valConv : β → PyObject)
    (es : List (α × β)) : PyObject :=
  .dict (es.map fun kv => (keyConv kv.1, valConv kv.2))

/-!  The `ToWrappedPyObject` marshallers of src/lib.rs. -/

/-- `ToWrappedPyObject for Vec<T>` (and the inline
`.iter().map(..).collect()` pattern): wrap each element in order,
propagating the first failure. -/
def wrapList (f : α → Except MarshalError PyObject) :
    List α → Except MarshalError (List PyObject)
  | [] => .ok []
  | x :: xs => do
    let y ← f x
    let ys ← wrapList f xs
    pure (y :: ys)

/-- `ToWrappedPyObject for Option<T>`: absence becomes the host no-value
marker without consulting the registry; presence wraps the payload. -/
def wrapOption (f : α → Except MarshalError PyObject) :
    Option α → Except MarshalError PyObject
  | Option.none => .ok PyObject.none
  | some x => f x

/-- Modelled from the spec: the marshaller for anchors in src/anchor.rs
(absent from src/) resolves the "Anchor" constructor and invokes it with
the extracted named arguments. -/
def Anchor.to_wrapped_object (loader : Loader) (a : Anchor) :
    Except MarshalError PyObject := do
  let cls ← getattr loader "Anchor"
  pure (.call cls a.kwargs)

/-- Modelled from the spec: the marshaller for contours in
src/contour.rs (absent from src/). -/
def Contour.to_wrapped_object (loader : Loader) (c : Contour) :
    Except MarshalError PyObject := do
  let cls ← getattr loader "Contour"
  pure (.call cls c.kwargs)

/-- Modelled from the spec: the marshaller for components in
src/component.rs (absent from src/). -/
def Component.to_wrapped_object (loader : Loader) (c : Component) :
    Except MarshalError PyObject := do
  let cls ← getattr loader "Component"
  pure (.call cls c.kwargs)

/-- Modelled from the spec: the marshaller for guidelines in
src/guideline.rs (absent from src/). -/
def Guideline.to_wrapped_object (loader : Loader) (g : Guideline) :
    Except MarshalError PyObject := do
  let cls ← getattr loader "Guideline"
  pure (.call cls g.kwargs)

/-- Modelled from the spec: the marshaller for font info in src/info.rs
(absent from src/) resolves the "Info" constructor. -/
def FontInfo.to_wrapped_object (loader : Loader) (fi : FontInfo) :
    Except MarshalError PyObject := do
  let cls ← getattr loader "Info"
  pure (.call cls fi.kwargs)

/-- `ToWrappedPyObject for Arc<norad::Glyph>` (src/lib.rs): resolve the
"Glyph" constructor, then build the fixed named-argument set (name,
width, unicodes, lib, note, anchors, contours, components, guidelines)
and invoke the constructor with it. -/
def Glyph.to_wrapped_object (loader : Loader) (g : Glyph) :
    Except MarshalError PyObject := do
  let cls ← getattr loader "Glyph"
  let anchors ← wrapList (Anchor.to_wrapped_object loader) g.anchors
  let contours ← wrapList (Contour.to_wrapped_object loader) g.contours
  let components ← wrapList (Component.to_wrapped_object loader) g.components
  let guidelines ← wrapList (Guideline.to_wrapped_object loader) g.guidelines
  pure (.call cls
    [("name", arcStrToObject g.name),
     ("width", optionToObject PyObject.real g.width),
     ("unicodes", .list (g.codepoints.map fun l => .int (l.toNat : Int))),
     ("lib", .dict (Plist.dictToObject g.lib)),
     ("note", optionToObject PyObject.str g.note),
     ("anchors", .list anchors),
     ("contours", .list contours),
     ("components", .list components),
     ("guidelines", .list guidelines)])

/-- `ToWrappedPyObject for norad::Layer` (src/lib.rs): resolve the
"Layer" constructor, wrap the glyphs in iteration order, and invoke the
constructor with (name, glyphs, lib, color); an absent colour becomes
the no-value marker, a present one its textual RGBA form. -/
def Layer.to_wrapped_object (loader : Loader) (l : Layer) :
    Except MarshalError PyObject := do
  let cls ← getattr loader "Layer"
  let glyphs ← wrapList (Glyph.to_wrapped_object loader) l.glyphs
  pure (.call cls
    [("name", arcStrToObject l.name),
     ("glyphs", .list glyphs),
     ("lib", .dict (Plist.dictToObject l.lib)),
     ("color", optionToObject PyObject.str (l.color.map Color.to_rgba_string))])

/-- `wrap_layerset` (src/lib.rs): wrap every layer first, in source
order, then resolve "LayerSet" and call its `from_iterable` class method
with the wrapped list and the default layer's name. -/
def wrap_layerset (layers : LayerSet) (loader : Loader) :
    Except MarshalError PyObject := do
  let wrapped_layers ← wrapList (Layer.to_wrapped_object loader) layers.layers
  let cls ← getattr loader "LayerSet"
  pure (.methodCall cls "from_iterable"
    [.list wrapped_layers, .str layers.default_layer.name])

/-- The entries the `wrap_kerning` loop of src/lib.rs sets into its
dict: for each outer pair (left, inner) in stored order and each inner
pair (right, kern), one entry keyed by the (left, right) tuple. -/
def kerningEntries (kerning : Kerning) : List (PyObject × PyObject) :=
  kerning.flatMap fun lv =>
    lv.2.map fun rk => (.tuple [.str lv.1, .str rk.1], .real rk.2)

/-- Representation invariant of a kerning value: the outer map and every
inner map have strictly ascending keys (`BTreeMap`s). -/
def kerningWf (k : Kerning) : Bool :=
  sortedKeys k && k.all fun lv => sortedKeys lv.2

/-- `wrap_kerning` (src/lib.rs): flatten the two-level mapping into one
dict keyed by (left, right) tuples; absent kerning yields an empty
dict. -/
def wrap_kerning : Option Kerning → PyObject
  | some kerning => .dict (kerningEntries kerning)
  | Option.none => .dict []

/-- `ToWrappedPyObject for norad::Font` (src/lib.rs): resolve "Font",
marshal the layer set and the optional font info, and invoke the
constructor with (lib, layers, info, features, groups, kerning); absent
features become the empty string, absent groups the empty dict. -/
def Font.to_wrapped_object (loader : Loader) (f : Font) :
    Except MarshalError PyObject := do
  let cls ← getattr loader "Font"
  let layers ← wrap_layerset f.layers loader
  let info ← wrapOption (FontInfo.to_wrapped_object loader) f.font_info
  pure (.call cls
    [("lib", .dict (Plist.dictToObject f.lib)),
     ("layers", layers),
     ("info", info),
     ("features", .str (f.features.getD "")),
     ("groups",
       match f.groups with
       | some g => btreemapToObject PyObject.str (vecToObject PyObject.str) g
       | Option.none => .dict []),
     ("kerning", wrap_kerning f.kerning)])

/-- The error surface of `load`: a parse failure becomes the single
domain error `iondriveError` carrying the parser's message text; a
marshalling panic (registry lookup failure) aborts the call. -/
inductive LoadError where
  | iondriveError (msg : String)
  | panic (e : MarshalError)
deriving Repr, DecidableEq

/-- `load` (src/lib.rs), with the external parser abstracted as its
outcome at the given path: on parse success the parsed font is
marshalled rooted at Font; on parse failure the parser's message is
wrapped into the single domain error kind, with no retry. -/
def load (loader : Loader) (parsed : Except String Font) :
    Except LoadError PyObject :=
  match parsed with
  | .ok ufo => (Font.to_wrapped_object loader ufo).mapError LoadError.panic
  | .error error => .error (.iondriveError error)

/-!  A concrete font model: one layer named "public.default" holding one
glyph "A" of width 500 with no anchors, contours, components or
guidelines. -/

/-- The glyph "A" of the round-trip scenario: width 500, nothing else. -/
def glyphA : Glyph :=
  { name := "A", width := some 500, codepoints := [], lib := [],
    note := Option.none, anchors := [], contours := [], components := [],
    guidelines := [] }

/-- The single layer "public.default" of the round-trip scenario. -/
def defaultLayer : Layer :=
  { name := "public.default", glyphs := [glyphA], lib := [],
    color := Option.none }

/-- The layer set of the round-trip scenario: one layer, which is also
the default layer. -/
def exampleLayerSet : LayerSet :=
  { layers := [defaultLayer], default_layer := defaultLayer }

/-- The font of the round-trip scenario: the sole layer set, with every
optional field absent. -/
def exampleFont : Font :=
  { lib := [], layers := exampleLayerSet, font_info := Option.none,
    features := Option.none, groups := Option.none, kerning := Option.none }

/-- The marshalled glyph "A" of the round-trip scenario. -/
def glyphAObj : PyObject :=
  .call "Glyph"
    [("name", .str "A"),
     ("width", .real 500),
     ("unicodes", .list []),
     ("lib", .dict []),
     ("note", PyObject.none),
     ("anchors", .list []),
     ("contours", .list []),
     ("components", .list []),
     ("guidelines", .list [])]

/-- The marshalled layer of the round-trip scenario. -/
def defaultLayerObj : PyObject :=
  .call "Layer"
    [("name", .str "public.default"),
     ("glyphs", .list [glyphAObj]),
     ("lib", .dict []),
     ("color", PyObject.none)]

/-- The marshalled font of the round-trip scenario. -/
def exampleFontObj : PyObject :=
  .call "Font"
    [("lib", .dict []),
     ("layers", .methodCall "LayerSet" "from_iterable"
        [.list [defaultLayerObj], .str "public.default"]),
     ("info", PyObject.none),
     ("features", .str ""),
     ("groups", .dict []),
     ("kerning", .dict [])]

/-- A glyph with every optional field absent, used to exercise the
no-value normalisations. -/
def bareGlyph : Glyph :=
  { name := "B", width := Option.none, codepoints := [], lib := [],
    note := Option.none, anchors := [], contours := [], components := [],
    guidelines := [] }

/-- The marshalled form of `bareGlyph`. -/
def bareGlyphObj : PyObject :=
  .call "Glyph"
    [("name", .str "B"),
     ("width", PyObject.none),
     ("unicodes", .list []),
     ("lib", .dict []),
     ("note", PyObject.none),
     ("anchors", .list []),
     ("contours", .list []),
     ("components", .list []),
     ("guidelines", .list [])]

/-- A registry that resolves every type name except "Glyph". -/
def noGlyphLoader : Loader := fun n => !(n == "Glyph")

/-- A concrete nested library value: two levels of sorted dictionaries,
one reached through an array. -/
def nestedLibValue : Plist :=
  .dict
    [("alpha", .dict [("k1", .integer 1), ("k2", .string "x")]),
     ("beta", .array [.dict [("z", .boolean true)]]),
     ("gamma", .real 2)]

/-!  Helper lemmas about the `Except` plumbing. -/

/-- Successful bind splits into a successful first step and a successful
continuation. -/
theorem bind_ok {ε α β : Type} {ma : Except ε α} {f : α → Except ε β} {b : β}
    (h : ma >>= f = .ok b) : ∃ a, ma = .ok a ∧ f a = .ok b := by
  cases ma with
  | ok a => exact ⟨a, rfl, h⟩
  | error e => simp [Bind.bind, Except.bind] at h

/-- A successful registry lookup returns the requested name, and the
name resolves in the registry. -/
theorem getattr_ok {loader : Loader} {n c : String}
    (h : getattr loader n = .ok c) : c = n ∧ loader n = true := by
  unfold getattr at h
  by_cases hl : loader n = true
  · simp [hl] at h
    exact ⟨h.symm, hl⟩
  · simp [hl] at h

/-- A wrapped list has the same length as its source. -/
theorem wrapList_ok_length {f : α → Except MarshalError PyObject}
    {xs : List α} {ys : List PyObject}
    (h : wrapList f xs = .ok ys) : ys.length = xs.length := by
  induction xs generalizing ys with
  | nil =>
    unfold wrapList at h
    cases h
    rfl
  | cons x xs ih =>
    unfold wrapList at h
    obtain ⟨y, hy, h⟩ := bind_ok h
    obtain ⟨ys₀, hys₀, h⟩ := bind_ok h
    cases h
    simp [ih hys₀]

/-- Elementwise content of a wrapped list: the element at each index is
the successful wrap of the source element at the same index. -/
theorem wrapList_ok_get {f : α → Except MarshalError PyObject}
    {xs : List α} {ys : List PyObject}
    (h : wrapList f xs = .ok ys) :
    ∀ i (h₁ : i < xs.length) (h₂ : i < ys.length),
      f (xs.get ⟨i, h₁⟩) = .ok (ys.get ⟨i, h₂⟩) := by
  induction xs generalizing ys with
  | nil => intro i h₁ h₂; exact absurd h₁ (by simp)
  | cons x xs ih =>
    unfold wrapList at h
    obtain ⟨y, hy, h⟩ := bind_ok h
    obtain ⟨ys₀, hys₀, h⟩ := bind_ok h
    cases h
    intro i h₁ h₂
    cases i with
    | zero => simpa using hy
    | succ j =>
      simp only [List.get_cons_succ]
      exact ih hys₀ j (by simpa using h₁) (by simpa using h₂)

/-- Every source element of a successfully wrapped list wraps to some
member of the output list. -/
theorem wrapList_ok_mem {f : α → Except MarshalError PyObject}
    {xs : List α} {ys : List PyObject} {x : α}
    (h : wrapList f xs = .ok ys) (hx : x ∈ xs) :
    ∃ y ∈ ys, f x = .ok y := by
  induction xs generalizing ys with
  | nil => cases hx
  | cons a xs ih =>
    unfold wrapList at h
    obtain ⟨y, hy, h⟩ := bind_ok h
    obtain ⟨ys₀, hys₀, h⟩ := bind_ok h
    cases h
    rcases List.mem_cons.1 hx with rfl | hx
    · exact ⟨y, List.mem_cons_self _ _, hy⟩
    · obtain ⟨y₀, hy₀, hfy₀⟩ := ih hys₀ hx
      exact ⟨y₀, List.mem_cons_of_mem _ hy₀, hfy₀⟩

/-- A successfully wrapped layer is a "Layer" constructor call whose
named arguments are exactly (name, glyphs, lib, color), with the glyphs
wrapped in order. -/
theorem layer_ok_shape {loader : Loader} {l : Layer} {o : PyObject}
    (h : Layer.to_wrapped_object loader l = .ok o) :
    loader "Layer" = true ∧
    ∃ glyphs, wrapList (Glyph.to_wrapped_object loader) l.glyphs = .ok glyphs ∧
      o = .call "Layer"
        [("name", arcStrToObject l.name),
         ("glyphs", .list glyphs),
         ("lib", .dict (Plist.dictToObject l.lib)),
         ("color", optionToObject PyObject.str (l.color.map Color.to_rgba_string))] := by
  unfold Layer.to_wrapped_object at h
  obtain ⟨cls, hcls, h⟩ := bind_ok h
  obtain ⟨rfl, hl⟩ := getattr_ok hcls
  obtain ⟨glyphs, hglyphs, h⟩ := bind_ok h
  cases h
  exact ⟨hl, glyphs, hglyphs, rfl⟩

/-- A successfully wrapped glyph is a "Glyph" constructor call whose
named arguments are exactly the nine of the source, with the four child
lists wrapped in order. -/
theorem glyph_ok_shape {loader : Loader} {g : Glyph} {o : PyObject}
    (h : Glyph.to_wrapped_object loader g = .ok o) :
    loader "Glyph" = true ∧
    ∃ anchors contours components guidelines,
      wrapList (Anchor.to_wrapped_object loader) g.anchors = .ok anchors ∧
      wrapList (Contour.to_wrapped_object loader) g.contours = .ok contours ∧
      wrapList (Component.to_wrapped_object loader) g.components = .ok components ∧
      wrapList (Guideline.to_wrapped_object loader) g.guidelines = .ok guidelines ∧
      o = .call "Glyph"
        [("name", arcStrToObject g.name),
         ("width", optionToObject PyObject.real g.width),
         ("unicodes", .list (g.codepoints.map fun l => .int (l.toNat : Int))),
         ("lib", .dict (Plist.dictToObject g.lib)),
         ("note", optionToObject PyObject.str g.note),
         ("anchors", .list anchors),
         ("contours", .list contours),
         ("components", .list components),
         ("guidelines", .list guidelines)] := by
  unfold Glyph.to_wrapped_object at h
  obtain ⟨cls, hcls, h⟩ := bind_ok h
  obtain ⟨rfl, hl⟩ := getattr_ok hcls
  obtain ⟨anchors, ha, h⟩ := bind_ok h
  obtain ⟨contours, hc, h⟩ := bind_ok h
  obtain ⟨components, hm, h⟩ := bind_ok h
  obtain ⟨guidelines, hg, h⟩ := bind_ok h
  cases h
  exact ⟨hl, anchors, contours, components, guidelines, ha, hc, hm, hg, rfl⟩

/-- A successful `wrap_layerset` wrapped every layer in order and called
the `from_iterable` class method of the resolved "LayerSet" class with
the wrapped list and the default layer's name. -/
theorem wrap_layerset_ok_shape {loader : Loader} {ls : LayerSet} {o : PyObject}
    (h : wrap_layerset ls loader = .ok o) :
    loader "LayerSet" = true ∧
    ∃ ws, wrapList (Layer.to_wrapped_object loader) ls.layers = .ok ws ∧
      o = .methodCall "LayerSet" "from_iterable"
        [.list ws, .str ls.default_layer.name] := by
  unfold wrap_layerset at h
  obtain ⟨ws, hws, h⟩ := bind_ok h
  obtain ⟨cls, hcls, h⟩ := bind_ok h
  obtain ⟨rfl, hl⟩ := getattr_ok hcls
  cases h
  exact ⟨hl, ws, hws, rfl⟩

/-- A successfully wrapped font is a "Font" constructor call whose named
arguments are exactly (lib, layers, info, features, groups, kerning),
with the normalisations of src/lib.rs applied to features, groups and
kerning. -/
theorem font_ok_shape {loader : Loader} {f : Font} {o : PyObject}
    (h : Font.to_wrapped_object loader f = .ok o) :
    loader "Font" = true ∧
    ∃ layers info,
      wrap_layerset f.layers loader = .ok layers ∧
      wrapOption (FontInfo.to_wrapped_object loader) f.font_info = .ok info ∧
      o = .call "Font"
        [("lib", .dict (Plist.dictToObject f.lib)),
         ("layers", layers),
         ("info", info),
         ("features", .str (f.features.getD "")),
         ("groups",
           match f.groups with
           | some g => btreemapToObject PyObject.str (vecToObject PyObject.str) g
           | Option.none => .dict []),
         ("kerning", wrap_kerning f.kerning)] := by
  unfold Font.to_wrapped_object at h
  obtain ⟨cls, hcls, h⟩ := bind_ok h
  obtain ⟨rfl, hl⟩ := getattr_ok hcls
  obtain ⟨layers, hlayers, h⟩ := bind_ok h
  obtain ⟨info, hinfo, h⟩ := bind_ok h
  cases h
  exact ⟨hl, layers, info, hlayers, hinfo, rfl⟩

/-- C1: for every font model, the sequence of marshalled Layer objects
passed to the LayerSet aggregate constructor equals, element for element
and in the same order, the source LayerSet's iteration order; no layer
is reordered, dropped, or deduplicated. -/
theorem layerset_marshal_preserves_order (loader : Loader) (ls : LayerSet)
    (o : PyObject) (h : wrap_layerset ls loader = .ok o) :
    ∃ ws, o = .methodCall "LayerSet" "from_iterable"
        [.list ws, .str ls.default_layer.name] ∧
      ws.length = ls.layers.length ∧
      ∀ i (h₁ : i < ls.layers.length) (h₂ : i < ws.length),
        Layer.to_wrapped_object loader (ls.layers.get ⟨i, h₁⟩) =
          .ok (ws.get ⟨i, h₂⟩) := by
  obtain ⟨-, ws, hws, rfl⟩ := wrap_layerset_ok_shape h
  exact ⟨ws, rfl, wrapList_ok_length hws, fun i h₁ h₂ => wrapList_ok_get hws i h₁ h₂⟩

/-- Closed witness for C1: on the round-trip scenario layer set the
marshalled layer list has length one and its sole element is the
wrapped default layer. -/
theorem layerset_marshal_preserves_order_witness :
    ∃ ws, (.methodCall "LayerSet" "from_iterable"
        [.list ws, .str exampleLayerSet.default_layer.name] : PyObject) =
        .methodCall "LayerSet" "from_iterable"
          [.list ws, .str exampleLayerSet.default_layer.name] ∧
      ws.length = exampleLayerSet.layers.length ∧
      ∀ i (h₁ : i < exampleLayerSet.layers.length) (h₂ : i < ws.length),
        Layer.to_wrapped_object fullLoader (exampleLayerSet.layers.get ⟨i, h₁⟩) =
          .ok (ws.get ⟨i, h₂⟩) := by
  obtain ⟨ws, -, h₂, h₃⟩ :=
    layerset_marshal_preserves_order fullLoader exampleLayerSet
      (.methodCall "LayerSet" "from_iterable"
        [.list [defaultLayerObj], .str "public.default"]) rfl
  exact ⟨ws, rfl, h₂, h₃⟩

/-- C8: whenever the source layer set's own invariant holds (its default
layer is one of its layers), the default-layer name handed to the
aggregate constructor is the name of one of the marshalled layers. -/
theorem layerset_default_name_present (loader : Loader) (ls : LayerSet)
    (o : PyObject) (hinv : ls.default_layer ∈ ls.layers)
    (h : wrap_layerset ls loader = .ok o) :
    ∃ ws, o = .methodCall "LayerSet" "from_iterable"
        [.list ws, .str ls.default_layer.name] ∧
      ∃ w ∈ ws, w.kwarg "name" = some (.str ls.default_layer.name) := by
  obtain ⟨-, ws, hws, rfl⟩ := wrap_layerset_ok_shape h
  obtain ⟨w, hw, hfw⟩ := wrapList_ok_mem hws hinv
  obtain ⟨-, glyphs, -, rfl⟩ := layer_ok_shape hfw
  exact ⟨ws, rfl, _, hw, by simp [PyObject.kwarg, List.lookup, arcStrToObject]⟩

/-- Closed witness for C8: on the round-trip scenario layer set the
default-layer name "public.default" is the name of a marshalled layer. -/
theorem layerset_default_name_present_witness :
    exampleLayerSet.default_layer ∈ exampleLayerSet.layers ∧
    ∃ ws, (.methodCall "LayerSet" "from_iterable"
        [.list [defaultLayerObj], .str "public.default"] : PyObject) =
        .methodCall "LayerSet" "from_iterable"
          [.list ws, .str exampleLayerSet.default_layer.name] ∧
      ∃ w ∈ ws, w.kwarg "name" = some (.str exampleLayerSet.default_layer.name) :=
  ⟨List.mem_singleton.2 rfl,
    layerset_default_name_present fullLoader exampleLayerSet
      (.methodCall "LayerSet" "from_iterable"
        [.list [defaultLayerObj], .str "public.default"])
      (List.mem_singleton.2 rfl) rfl⟩

/-- C2: the Font marshalling normalises absence asymmetrically — absent
kerning and absent groups each become an empty mapping, absent feature
text becomes an empty string, while the optional scalars width, note and
color become the explicit no-value marker when absent. -/
theorem marshal_absence_asymmetry (loader : Loader) :
    (∀ f o, Font.to_wrapped_object loader f = .ok o →
      f.kerning = Option.none → o.kwarg "kerning" = some (.dict [])) ∧
    (∀ f o, Font.to_wrapped_object loader f = .ok o →
      f.groups = Option.none → o.kwarg "groups" = some (.dict [])) ∧
    (∀ f o, Font.to_wrapped_object loader f = .ok o →
      f.features = Option.none → o.kwarg "features" = some (.str "")) ∧
    (∀ g o, Glyph.to_wrapped_object loader g = .ok o →
      g.width = Option.none → o.kwarg "width" = some PyObject.none) ∧
    (∀ g o, Glyph.to_wrapped_object loader g = .ok o →
      g.note = Option.none → o.kwarg "note" = some PyObject.none) ∧
    (∀ l o, Layer.to_wrapped_object loader l = .ok o →
      l.color = Option.none → o.kwarg "color" = some PyObject.none) := by
  refine ⟨?_, ?_, ?_, ?_, ?_, ?_⟩
  · intro f o h hk
    obtain ⟨-, layers, info, -, -, rfl⟩ := font_ok_shape h
    rw [hk]
    rfl
  · intro f o h hg
    obtain ⟨-, layers, info, -, -, rfl⟩ := font_ok_shape h
    rw [hg]
    rfl
  · intro f o h hf
    obtain ⟨-, layers, info, -, -, rfl⟩ := font_ok_shape h
    rw [hf]
    rfl
  · intro g o h hw
    obtain ⟨-, anchors, contours, components, guidelines, -, -, -, -, rfl⟩ :=
      glyph_ok_shape h
    rw [hw]
    rfl
  · intro g o h hn
    obtain ⟨-, anchors, contours, components, guidelines, -, -, -, -, rfl⟩ :=
      glyph_ok_shape h
    rw [hn]
    rfl
  · intro l o h hc
    obtain ⟨-, glyphs, -, rfl⟩ := layer_ok_shape h
    rw [hc]
    rfl

/-- Closed witness for C2: the round-trip font has kerning, groups and
features absent and its marshalled form carries the empty dict, empty
dict and empty string; the bare glyph has width and note absent and the
scenario layer has colour absent, and their marshalled forms carry the
no-value marker. -/
theorem marshal_absence_asymmetry_witness :
    PyObject.kwarg exampleFontObj "kerning" = some (.dict []) ∧
    PyObject.kwarg exampleFontObj "groups" = some (.dict []) ∧
    PyObject.kwarg exampleFontObj "features" = some (.str "") ∧
    PyObject.kwarg bareGlyphObj "width" = some PyObject.none ∧
    PyObject.kwarg bareGlyphObj "note" = some PyObject.none ∧
    PyObject.kwarg defaultLayerObj "color" = some PyObject.none :=
  ⟨(marshal_absence_asymmetry fullLoader).1 exampleFont exampleFontObj rfl rfl,
   (marshal_absence_asymmetry fullLoader).2.1 exampleFont exampleFontObj rfl rfl,
   (marshal_absence_asymmetry fullLoader).2.2.1 exampleFont exampleFontObj rfl rfl,
   (marshal_absence_asymmetry fullLoader).2.2.2.1 bareGlyph bareGlyphObj rfl rfl,
   (marshal_absence_asymmetry fullLoader).2.2.2.2.1 bareGlyph bareGlyphObj rfl rfl,
   (marshal_absence_asymmetry fullLoader).2.2.2.2.2 defaultLayer defaultLayerObj
     rfl rfl⟩

/-- C10: the marshalling is not injective on the normalised fields — a
font whose feature text is the empty string instead of absent, whose
groups is an empty mapping instead of absent, or whose kerning is an
empty mapping instead of absent marshals to an identical output. -/
theorem marshal_empty_absent_indistinguishable (loader : Loader) (f : Font) :
    Font.to_wrapped_object loader { f with features := some "" } =
      Font.to_wrapped_object loader { f with features := Option.none } ∧
    Font.to_wrapped_object loader { f with groups := some ([] : Groups) } =
      Font.to_wrapped_object loader { f with groups := Option.none } ∧
    Font.to_wrapped_object loader { f with kerning := some ([] : Kerning) } =
      Font.to_wrapped_object loader { f with kerning := Option.none } :=
  ⟨rfl, rfl, rfl⟩

/-!  Lemmas about sorted association lists (the `BTreeMap` invariant). -/

/-- The head key of a sorted association list is below every later key. -/
theorem sortedKeys_lt_head {β : Type} :
    ∀ (rest : List (String × β)) (a : String) (va : β),
      sortedKeys ((a, va) :: rest) = true → ∀ p ∈ rest, a < p.1 := by
  intro rest
  induction rest with
  | nil => intro a va h p hp; cases hp
  | cons hd r ih =>
    intro a va h p hp
    obtain ⟨b, vb⟩ := hd
    simp only [sortedKeys, Bool.and_eq_true, decide_eq_true_eq] at h
    rcases List.mem_cons.1 hp with rfl | hp₀
    · exact h.1
    · exact lt_trans h.1 (ih b vb (by simpa [sortedKeys, Bool.and_eq_true] using h.2) p hp₀)

/-- Sortedness is preserved by dropping the head entry. -/
theorem sortedKeys_tail {β : Type} {p : String × β} {rest : List (String × β)}
    (h : sortedKeys (p :: rest) = true) : sortedKeys rest = true := by
  obtain ⟨a, va⟩ := p
  cases rest with
  | nil => rfl
  | cons q r =>
    obtain ⟨b, vb⟩ := q
    simp only [sortedKeys, Bool.and_eq_true] at h
    simpa [sortedKeys, Bool.and_eq_true] using h.2

/-- A sorted association list is pairwise strictly ascending in its
keys. -/
theorem sortedKeys_pairwise {β : Type} :
    ∀ {es : List (String × β)}, sortedKeys es = true →
      es.Pairwise (fun p q => p.1 < q.1) := by
  intro es
  induction es with
  | nil => intro _; exact List.Pairwise.nil
  | cons hd rest ih =>
    intro h
    obtain ⟨a, va⟩ := hd
    exact List.Pairwise.cons (sortedKeys_lt_head rest a va h) (ih (sortedKeys_tail h))

/-- The flattening loop of `wrap_kerning` on a cons: the entries of the
head's inner map, then the entries of the remaining rows. -/
theorem kerningEntries_cons (l : String) (inner : List (String × Rat))
    (rest : Kerning) :
    kerningEntries ((l, inner) :: rest) =
      (inner.map fun rk => ((.tuple [.str l, .str rk.1], .real rk.2) :
        PyObject × PyObject)) ++ kerningEntries rest := by
  simp [kerningEntries]

/-- Membership in the flattened kerning dict entries is exactly two-level
membership in the source mapping. -/
theorem mem_kerningEntries {k : Kerning} {l r : String} {v : Rat} :
    ((.tuple [.str l, .str r], .real v) : PyObject × PyObject) ∈
        kerningEntries k ↔
      ∃ inner, (l, inner) ∈ k ∧ (r, v) ∈ inner := by
  constructor
  · intro h
    simp only [kerningEntries, List.mem_flatMap, List.mem_map] at h
    obtain ⟨⟨l₀, inner₀⟩, hmem, ⟨r₀, v₀⟩, hrv, heq⟩ := h
    simp only [Prod.mk.injEq, PyObject.tuple.injEq, List.cons.injEq,
      PyObject.str.injEq, PyObject.real.injEq, and_true] at heq
    obtain ⟨⟨hl, hr⟩, hv⟩ := heq
    subst hl
    subst hr
    subst hv
    exact ⟨inner₀, hmem, hrv⟩
  · rintro ⟨inner, hmem, hrv⟩
    simp only [kerningEntries, List.mem_flatMap, List.mem_map]
    exact ⟨(l, inner), hmem, (r, v), hrv, rfl⟩

/-- Every flattened kerning entry is a ((left, right) tuple, number)
pair coming from the two-level source mapping. -/
theorem kerningEntries_shape {k : Kerning} :
    ∀ e ∈ kerningEntries k, ∃ l r v,
      e = ((.tuple [.str l, .str r], .real v) : PyObject × PyObject) ∧
      ∃ inner, (l, inner) ∈ k ∧ (r, v) ∈ inner := by
  intro e he
  simp only [kerningEntries, List.mem_flatMap, List.mem_map] at he
  obtain ⟨⟨l, inner⟩, hmem, ⟨r, v⟩, hrv, heq⟩ := he
  exact ⟨l, r, v, heq.symm, inner, hmem, hrv⟩

/-- Under the two-level `BTreeMap` invariant the flattened kerning keys
are pairwise distinct: no (left, right) pair is emitted twice. -/
theorem kerningEntries_keys_nodup :
    ∀ (k : Kerning), kerningWf k = true →
      ((kerningEntries k).map Prod.fst).Nodup := by
  intro k
  induction k with
  | nil => intro _; simp [kerningEntries]
  | cons hd rest ih =>
    intro h
    obtain ⟨l, inner⟩ := hd
    unfold kerningWf at h
    simp only [Bool.and_eq_true, List.all_cons, List.all_eq_true] at h
    obtain ⟨hsort, hinner, hall⟩ := h
    have hrest : kerningWf rest = true := by
      unfold kerningWf
      simp only [Bool.and_eq_true, List.all_eq_true]
      exact ⟨sortedKeys_tail hsort, hall⟩
    rw [kerningEntries_cons, List.map_append]
    apply List.Nodup.append
    · rw [List.map_map]
      have hpw := sortedKeys_pairwise hinner
      refine List.Pairwise.map _ ?_ hpw
      intro p q hpq
      simp only [Function.comp_apply, ne_eq, PyObject.tuple.injEq,
        List.cons.injEq, PyObject.str.injEq, and_true, true_and]
      intro hcon
      exact absurd hcon (ne_of_lt hpq)
    · exact ih hrest
    · rw [List.disjoint_left]
      intro x hx hx₀
      simp only [List.map_map, List.mem_map, Function.comp_apply] at hx
      obtain ⟨⟨r, v⟩, -, rfl⟩ := hx
      simp only [List.mem_map] at hx₀
      obtain ⟨e, he, hkey⟩ := hx₀
      obtain ⟨l₀, r₀, v₀, rfl, inner₀, hmem₀, -⟩ := kerningEntries_shape e he
      simp only [PyObject.tuple.injEq, List.cons.injEq, PyObject.str.injEq,
        and_true, true_and] at hkey
      have hlt := sortedKeys_lt_head rest l inner hsort (l₀, inner₀) hmem₀
      exact absurd hkey.1 (ne_of_gt hlt)

/-- C4: the marshalled kerning is a single flat mapping with exactly one
entry keyed (left, right) with the numeric adjustment as value for each
pair of the source's two-level mapping and nothing else; in particular
the kerning A → B → -20 marshals to a dict with exactly the one entry
(("A","B"), -20). -/
theorem kerning_marshal_flat (k : Kerning) (hwf : kerningWf k = true) :
    wrap_kerning (some k) = .dict (kerningEntries k) ∧
    (∀ l r v, ((.tuple [.str l, .str r], .real v) : PyObject × PyObject) ∈
        kerningEntries k ↔ ∃ inner, (l, inner) ∈ k ∧ (r, v) ∈ inner) ∧
    (∀ e ∈ kerningEntries k, ∃ l r v,
      e = ((.tuple [.str l, .str r], .real v) : PyObject × PyObject) ∧
      ∃ inner, (l, inner) ∈ k ∧ (r, v) ∈ inner) ∧
    ((kerningEntries k).map Prod.fst).Nodup ∧
    wrap_kerning (some [("A", [("B", -20)])]) =
      .dict [(.tuple [.str "A", .str "B"], .real (-20))] :=
  ⟨rfl, fun _ _ _ => mem_kerningEntries, kerningEntries_shape,
    kerningEntries_keys_nodup k hwf, rfl⟩

/-- Closed witness for C4: the one-pair kerning A → B → -20 satisfies the
invariant and its flattened entries contain the pair keyed ("A","B")
with value -20. -/
theorem kerning_marshal_flat_witness :
    kerningWf [("A", [("B", -20)])] = true ∧
    ((.tuple [.str "A", .str "B"], .real (-20)) : PyObject × PyObject) ∈
      kerningEntries [("A", [("B", -20)])] :=
  ⟨rfl,
    ((kerning_marshal_flat [("A", [("B", -20)])] rfl).2.1 "A" "B" (-20)).2
      ⟨[("B", -20)], List.mem_singleton.2 rfl, List.mem_singleton.2 rfl⟩⟩

/-- C5: on parse success `load` returns the marshalled root Font object;
on parse failure it returns exactly the single domain error kind with
the parser's original message preserved as text. -/
theorem load_error_boundary (loader : Loader) (parsed : Except String Font) :
    (∀ msg, parsed = .error msg →
      load loader parsed = .error (.iondriveError msg)) ∧
    (∀ f o, parsed = .ok f → Font.to_wrapped_object loader f = .ok o →
      load loader parsed = .ok o) := by
  constructor
  · intro msg h
    subst h
    rfl
  · intro f o h hm
    subst h
    simp [load, hm, Except.mapError]

/-- Closed witness for C5: a parse failure with message "boom" is
reported as the domain error carrying "boom", and the round-trip font
parse success returns its marshalled object. -/
theorem load_error_boundary_witness :
    load fullLoader (.error "boom") = .error (.iondriveError "boom") ∧
    load fullLoader (.ok exampleFont) = .ok exampleFontObj :=
  ⟨(load_error_boundary fullLoader (.error "boom")).1 "boom" rfl,
   (load_error_boundary fullLoader (.ok exampleFont)).2 exampleFont
     exampleFontObj rfl rfl⟩

/-- C6: when the host registry cannot resolve a required type name, the
entire marshalling fails with a distinguishable error naming the missing
attribute; no partially constructed object is returned. -/
theorem marshal_fails_on_unresolvable_name (loader : Loader) (f : Font)
    (hmiss : loader "Font" = false ∨ loader "LayerSet" = false ∨
      (f.layers.layers ≠ [] ∧ loader "Layer" = false) ∨
      ((∃ l ∈ f.layers.layers, l.glyphs ≠ []) ∧ loader "Glyph" = false)) :
    ∃ n, Font.to_wrapped_object loader f = .error (.missingAttr n) := by
  cases hres : Font.to_wrapped_object loader f with
  | error e =>
    cases e with
    | missingAttr n => exact ⟨n, rfl⟩
  | ok o =>
    exfalso
    obtain ⟨hfont, layers, info, hlayers, -, -⟩ := font_ok_shape hres
    obtain ⟨hlayerset, ws, hws, -⟩ := wrap_layerset_ok_shape hlayers
    rcases hmiss with h | h | ⟨hne, h⟩ | ⟨⟨l, hl, hgne⟩, h⟩
    · exact absurd hfont (by simp [h])
    · exact absurd hlayerset (by simp [h])
    · obtain ⟨l, hl⟩ := List.exists_mem_of_ne_nil _ hne
      obtain ⟨w, -, hw⟩ := wrapList_ok_mem hws hl
      obtain ⟨hlayer, -⟩ := layer_ok_shape hw
      exact absurd hlayer (by simp [h])
    · obtain ⟨w, -, hw⟩ := wrapList_ok_mem hws hl
      obtain ⟨-, glyphs, hglyphs, -⟩ := layer_ok_shape hw
      obtain ⟨g, hg⟩ := List.exists_mem_of_ne_nil _ hgne
      obtain ⟨wg, -, hwg⟩ := wrapList_ok_mem hglyphs hg
      obtain ⟨hglyph, -⟩ := glyph_ok_shape hwg
      exact absurd hglyph (by simp [h])

/-- Closed witness for C6: a registry lacking "Glyph" makes the whole
marshalling of the round-trip font (which contains a glyph) fail with
the distinguishable missing-attribute error. -/
theorem marshal_fails_on_unresolvable_name_witness :
    noGlyphLoader "Glyph" = false ∧
    ∃ n, Font.to_wrapped_object noGlyphLoader exampleFont =
      .error (.missingAttr n) :=
  ⟨rfl,
    marshal_fails_on_unresolvable_name noGlyphLoader exampleFont
      (Or.inr (Or.inr (Or.inr
        ⟨⟨defaultLayer, List.mem_singleton.2 rfl, by simp [defaultLayer]⟩,
          rfl⟩)))⟩

/-!  The Scalar Converter cannot fail: its only internal fallible
operation is the dict `set_item`, which succeeds on every hashable
key. -/

/-- The `set_item` loop of the `BTreeMap` conversion succeeds on any
accumulated dict when every converted key is hashable, appending the
converted entries in stored order. -/
theorem foldlM_setItem_ok {α β : Type} (keyConv : α → PyObject)
    (valConv : β → PyObject) (hkey : ∀ a, (keyConv a).hashable = true) :
    ∀ (es : List (α × β)) (d : List (PyObject × PyObject)),
      es.foldlM (fun d kv => PyDict.setItem d (keyConv kv.1) (valConv kv.2)) d =
        .ok (d ++ es.map fun kv => (keyConv kv.1, valConv kv.2)) := by
  intro es
  induction es with
  | nil =>
    intro d
    simp only [List.foldlM_nil, List.map_nil, List.append_nil]
    rfl
  | cons kv rest ih =>
    intro d
    rw [List.foldlM_cons]
    have hstep : PyDict.setItem d (keyConv kv.1) (valConv kv.2) =
        .ok (d ++ [(keyConv kv.1, valConv kv.2)]) := by
      unfold PyDict.setItem
      rw [hkey kv.1]
      rfl
    rw [hstep]
    show (rest.foldlM (fun d kv => PyDict.setItem d (keyConv kv.1) (valConv kv.2))
      (d ++ [(keyConv kv.1, valConv kv.2)])) = _
    rw [ih]
    simp

/-- C7: the Scalar Converter is total and cannot fail — with every
internal `set_item` kept fallible, the `BTreeMap` conversion succeeds on
every input whose keys convert to hashable host values (as every key
used by the marshaller does) and returns exactly the pure structural
transform. -/
theorem scalar_map_conversion_total {α β : Type} (keyConv : α → PyObject)
    (valConv : β → PyObject) (hkey : ∀ a, (keyConv a).hashable = true)
    (es : List (α × β)) :
    btreemapToObjectChecked keyConv valConv es =
      .ok (btreemapToObject keyConv valConv es) := by
  unfold btreemapToObjectChecked btreemapToObject
  rw [foldlM_setItem_ok keyConv valConv hkey es []]
  rfl

/-- Closed witness for C7: string keys are hashable, and the checked
conversion of a one-entry library map returns the pure transform. -/
theorem scalar_map_conversion_total_witness :
    (∀ s : String, (PyObject.str s).hashable = true) ∧
    btreemapToObjectChecked PyObject.str Plist.to_object [("a", .integer 1)] =
      .ok (btreemapToObject PyObject.str Plist.to_object [("a", .integer 1)]) :=
  ⟨fun _ => rfl,
    scalar_map_conversion_total PyObject.str Plist.to_object (fun _ => rfl)
      [("a", .integer 1)]⟩

/-!  Sorted rendering of library data at every nesting depth. -/

/-- Converting a sorted library dictionary yields host dict entries with
string keys in strictly ascending order. -/
theorem keysAscending_dictToObject :
    ∀ (es : List (String × Plist)), sortedKeys es = true →
      keysAscending (Plist.dictToObject es) = true := by
  intro es
  induction es with
  | nil => intro _; rfl
  | cons hd rest ih =>
    intro h
    obtain ⟨a, va⟩ := hd
    cases rest with
    | nil => rfl
    | cons hd₂ r =>
      obtain ⟨b, vb⟩ := hd₂
      simp only [sortedKeys, Bool.and_eq_true, decide_eq_true_eq] at h
      simp only [Plist.dictToObject, keysAscending, strKeyLt, Bool.and_eq_true,
        decide_eq_true_eq]
      exact ⟨h.1, by simpa [Plist.dictToObject] using ih h.2⟩

mutual

/-- A well-formed library value converts to a host value all of whose
mappings, at every depth, list their keys in ascending order. -/
theorem plist_wf_to_object_sorted :
    ∀ (v : Plist), v.wf = true → v.to_object.dictsSorted = true
  | .string _, _ => rfl
  | .integer _, _ => rfl
  | .real _, _ => rfl
  | .boolean _, _ => rfl
  | .array xs, h => by
    have hx := plist_listWf_to_object_sorted xs (by simpa [Plist.wf] using h)
    simpa [Plist.to_object, PyObject.dictsSorted] using hx
  | .dict es, h => by
    have h₀ : sortedKeys es = true ∧ Plist.dictWf es = true := by
      simpa [Plist.wf, Bool.and_eq_true] using h
    have he := plist_dictWf_to_object_sorted es h₀.2
    have hk := keysAscending_dictToObject es h₀.1
    simp only [Plist.to_object, PyObject.dictsSorted, Bool.and_eq_true]
    exact ⟨hk, he⟩

/-- All members of a well-formed library array convert to sorted host
values. -/
theorem plist_listWf_to_object_sorted :
    ∀ (xs : List Plist), Plist.listWf xs = true →
      PyObject.listSorted (Plist.listToObject xs) = true
  | [], _ => rfl
  | x :: xs, h => by
    have h₀ : x.wf = true ∧ Plist.listWf xs = true := by
      simpa [Plist.listWf, Bool.and_eq_true] using h
    have h1 := plist_wf_to_object_sorted x h₀.1
    have h2 := plist_listWf_to_object_sorted xs h₀.2
    simp only [Plist.listToObject, PyObject.listSorted, Bool.and_eq_true]
    exact ⟨h1, h2⟩

/-- All values of a well-formed library dictionary convert to sorted
host values. -/
theorem plist_dictWf_to_object_sorted :
    ∀ (es : List (String × Plist)), Plist.dictWf es = true →
      PyObject.entriesSorted (Plist.dictToObject es) = true
  | [], _ => rfl
  | (_, v) :: es, h => by
    have h₀ : v.wf = true ∧ Plist.dictWf es = true := by
      simpa [Plist.dictWf, Bool.and_eq_true] using h
    have h1 := plist_wf_to_object_sorted v h₀.1
    have h2 := plist_dictWf_to_object_sorted es h₀.2
    simp only [Plist.dictToObject, PyObject.entriesSorted, Bool.and_eq_true]
    exact ⟨h1, h2⟩

end

/-- C3: every mapping produced by the library-data conversion, at every
nesting depth, enumerates its keys in ascending sorted key order — the
sorted associative source representation, not any insertion order,
determines the rendering. -/
theorem lib_data_mappings_sorted (v : Plist) (h : v.wf = true) :
    v.to_object.dictsSorted = true :=
  plist_wf_to_object_sorted v h

/-- Closed witness for C3: a concrete two-level library value is well
formed and converts to a host value whose mappings are all ascending. -/
theorem lib_data_mappings_sorted_witness :
    nestedLibValue.wf = true ∧
    nestedLibValue.to_object.dictsSorted = true := by
  have h₁ : ("alpha" : String) < "beta" := String.lt_iff_toList_lt.2 (by decide)
  have h₂ : ("beta" : String) < "gamma" := String.lt_iff_toList_lt.2 (by decide)
  have h₃ : ("k1" : String) < "k2" := String.lt_iff_toList_lt.2 (by decide)
  have hwf : nestedLibValue.wf = true := by
    simp [nestedLibValue, Plist.wf, Plist.dictWf, Plist.listWf, sortedKeys,
      h₁, h₂, h₃]
  exact ⟨hwf, lib_data_mappings_sorted nestedLibValue hwf⟩

/-- C9: the font with one layer "public.default" holding one glyph "A"
of width 500 and no anchors, contours, components or guidelines marshals
to a Font whose layer set has exactly that one layer, default-layer name
"public.default", and whose glyph has name "A", width 500, and
empty-but-present ordered lists for the four child collections. -/
theorem round_trip_scenario :
    Font.to_wrapped_object fullLoader exampleFont = .ok exampleFontObj ∧
    exampleFontObj.kwarg "layers" =
      some (.methodCall "LayerSet" "from_iterable"
        [.list [defaultLayerObj], .str "public.default"]) ∧
    defaultLayerObj.kwarg "name" = some (.str "public.default") ∧
    defaultLayerObj.kwarg "glyphs" = some (.list [glyphAObj]) ∧
    glyphAObj.kwarg "name" = some (.str "A") ∧
    glyphAObj.kwarg "width" = some (.real 500) ∧
    glyphAObj.kwarg "anchors" = some (.list []) ∧
    glyphAObj.kwarg "contours" = some (.list []) ∧
    glyphAObj.kwarg "components" = some (.list []) ∧
    glyphAObj.kwarg "guidelines" = some (.list []) ∧
    (PyObject.list []) ≠ PyObject.none :=
  ⟨rfl, rfl, rfl, rfl, rfl, rfl, rfl, rfl, rfl, rfl, fun h => nomatch h⟩

end Iondrive
